import Mathlib

/-!
Shallow embedding of `src/Weather.py` (class `NyanzaWeatherForecaster`,
methods `analyze_forecast` and `format_insights_for_farmers`).

Modelling conventions:
* Python floats are modelled as `ℚ` (exact arithmetic; no claim here depends on
  binary-float representation subtleties).
* `datetime.fromtimestamp(dt).strftime("%Y-%m-%d")` is modelled by the epoch-day
  index `Int.fdiv dt 86400` : distinct calendar days map to distinct integers and
  the lexicographic order of the formatted date strings agrees with the numeric
  order of the day index.
* Python `round(x, 1)` is modelled by round-half-to-even at one decimal (`rhe`),
  Python specified rounding mode.
* The Python dict `daily_data` is modelled as an association list in which a new
  key is appended at the end, matching the insertion-order iteration of Python
  dicts (`for date, data in daily_data.items()`).
* A Python `set` of condition labels is modelled as a duplicate-free list in
  first-insertion order; membership tests are order-independent.
* Missing JSON keys (`item["dt"]`, `item["main"]["temp"]`,
  `item["main"]["humidity"]`, `item["weather"]`) raise `KeyError`; this is
  modelled with `Option` fields on `Obs` and an `Except String` result.
  The optional `item["rain"]` block with `.get("3h", 0)` is modelled by
  `rain_3h : Option (Option ℚ)` (outer `none` = no "rain" key, inner `none` =
  a "rain" dict without the "3h" key).
-/

namespace Weather

/-- `datetime.fromtimestamp(dt).strftime("%Y-%m-%d")` modelled as epoch-day index
(floor division, as calendar days are floors of the time axis). -/
def dayOf (t : Int) : Int := Int.fdiv t 86400

/-- One crop entry of the `self.crop_data` table in `__init__`. -/
structure CropProfile where
  optimal_temp : ℚ × ℚ
  water_needs : ℚ
  risk_temp : ℚ
deriving DecidableEq

def maizeProfile : CropProfile := ⟨(20, 30), 500, 35⟩

def teaProfile : CropProfile := ⟨(15, 25), 1200, 30⟩

def beansProfile : CropProfile := ⟨(18, 27), 400, 32⟩

/-- The static `self.crop_data` dict, as a lookup function. -/
def crop_data (name : String) : Option CropProfile :=
  if name = "maize" then some maizeProfile
  else if name = "tea" then some teaProfile
  else if name = "beans" then some beansProfile
  else none

/-- `self.crop_data.get(crop_type, self.crop_data["maize"])` (line 38). -/
def cropInfoOf (name : String) : CropProfile := (crop_data name).getD maizeProfile

/-- One element of `forecast_data["list"]`: the fields `analyze_forecast` reads,
each `Option` marking a key whose absence raises `KeyError` in Python. -/
structure Obs where
  dt : Option Int
  main_temp : Option ℚ
  main_humidity : Option ℚ
  rain_3h : Option (Option ℚ)
  weather : Option (List String)
deriving DecidableEq

/-- One value of the `daily_data` dict (lines 45-53). `max_temp = none` models the
`-float("inf")` initialisation, `min_temp = none` models `float("inf")`. -/
structure Group where
  temp_sum : ℚ
  temp_count : ℕ
  rain_sum : ℚ
  humidity_sum : ℚ
  max_temp : Option ℚ
  min_temp : Option ℚ
  weather_conditions : List String
deriving DecidableEq

def initGroup : Group := ⟨0, 0, 0, 0, none, none, []⟩

/-- `max(old, t)` where `old` ranges over `ℚ` extended with `-inf` (= `none`). -/
def accMax (m : Option ℚ) (t : ℚ) : Option ℚ :=
  some (match m with | none => t | some x => max x t)

/-- `min(old, t)` where `old` ranges over `ℚ` extended with `inf` (= `none`). -/
def accMin (m : Option ℚ) (t : ℚ) : Option ℚ :=
  some (match m with | none => t | some x => min x t)

/-- Rain contributed by one item (lines 63-64): no `"rain"` key contributes
nothing, otherwise `item["rain"].get("3h", 0)`. -/
def rainOf (o : Obs) : ℚ :=
  match o.rain_3h with
  | none => 0
  | some r => r.getD 0

/-- `set.update` (line 70), on the insertion-ordered duplicate-free list model. -/
def condUnion (cs : List String) (ws : List String) : List String :=
  ws.foldl (fun acc w => if w ∈ acc then acc else acc ++ [w]) cs

def addTemp (t : ℚ) (g : Group) : Group :=
  { g with
    temp_sum := g.temp_sum + t
    temp_count := g.temp_count + 1
    max_temp := accMax g.max_temp t
    min_temp := accMin g.min_temp t }

def addRain (r : ℚ) (g : Group) : Group := { g with rain_sum := g.rain_sum + r }

def addHum (h : ℚ) (g : Group) : Group :=
  { g with humidity_sum := g.humidity_sum + h }

def addConds (ws : List String) (g : Group) : Group :=
  { g with weather_conditions := condUnion g.weather_conditions ws }

/-- The `daily_data` dict: association list in key-insertion order. -/
abbrev Daily := List (Int × Group)

def keysOf (l : Daily) : List Int := l.map Prod.fst

/-- In-place update of one dict entry (all keys are distinct by construction). -/
def updateAt (d : Int) (f : Group → Group) (l : Daily) : Daily :=
  l.map (fun p => if p.1 = d then (p.1, f p.2) else p)

/-- Lines 44-53: `if date not in daily_data: daily_data[date] = {...}`. -/
def maybeInit (d : Int) (l : Daily) : Daily :=
  if d ∈ keysOf l then l else l ++ [(d, initGroup)]

/-- The body of the loop over `forecast_data["list"]` (lines 42-72) for a single
item, with `KeyError` propagation. -/
def step (acc : Daily) (o : Obs) : Except String Daily :=
  match o.dt with
  | none => .error "KeyError: dt"
  | some t =>
    let date := dayOf t
    let acc1 := maybeInit date acc
    match o.main_temp with
    | none => .error "KeyError: temp"
    | some temp =>
      let acc2 := updateAt date (addTemp temp) acc1
      let acc3 := updateAt date (addRain (rainOf o)) acc2
      match o.main_humidity with
      | none => .error "KeyError: humidity"
      | some h =>
        let acc4 := updateAt date (addHum h) acc3
        match o.weather with
        | none => .error "KeyError: weather"
        | some ws => .ok (updateAt date (addConds ws) acc4)

/-- The whole aggregation loop (lines 42-72). -/
def buildDaily : List Obs → Daily → Except String Daily
  | [], acc => .ok acc
  | o :: rest, acc =>
    match step acc o with
    | .error e => .error e
    | .ok acc2 => buildDaily rest acc2

/-- Round half to even, the rounding mode of Python `round`. -/
def rhe (q : ℚ) : ℤ :=
  if q - ⌊q⌋ < 1/2 then ⌊q⌋
  else if 1/2 < q - ⌊q⌋ then ⌊q⌋ + 1
  else if ⌊q⌋ % 2 = 0 then ⌊q⌋ else ⌊q⌋ + 1

/-- Python `round(x, 1)`. -/
def roundTo1 (q : ℚ) : ℚ := (rhe (10 * q) : ℚ) / 10

/-- One element of the `insights` list (lines 100-109). `max_temp`/`min_temp`
keep the `Option` of the `±inf` initialisation (never `none` in reachable
results, proved below). -/
structure Insight where
  date : Int
  avg_temp : ℚ
  max_temp : Option ℚ
  min_temp : Option ℚ
  total_rain : ℚ
  avg_humidity : ℚ
  conditions : String
  recommendations : List String
deriving DecidableEq

def joinComma (l : List String) : String := String.intercalate ", " l

def heatMsg : String := "⚠️ High temperature warning! Consider shading crops."

def coldMsg : String := "❄️ Low temperatures may slow growth."

def irrigationMsg : String := "🌧️ Little rain expected. Consider irrigation."

def drainageMsg : String := "🌊 Heavy rain expected. Ensure proper drainage."

def stormMsg : String :=
  "⚡ Thunderstorm expected. Secure equipment and harvest if possible."

/-- `data["max_temp"] > crop_info["risk_temp"]` where the left side may still be
the `-float("inf")` initial value (then the comparison is false). -/
def floatMaxGT (m : Option ℚ) (r : ℚ) : Prop :=
  match m with
  | none => False
  | some x => r < x

instance (m : Option ℚ) (r : ℚ) : Decidable (floatMaxGT m r) :=
  match m with
  | none => isFalse (fun h => h)
  | some x => inferInstanceAs (Decidable (r < x))

/-- The rule block (lines 82-98): temperature rules, rainfall rules,
thunderstorm rule, appended in that order. -/
def recommendationsFor (info : CropProfile) (maxT : Option ℚ) (avgT totalRain : ℚ)
    (conds : List String) : List String :=
  (if floatMaxGT maxT info.risk_temp then [heatMsg]
   else if avgT < info.optimal_temp.1 then [coldMsg] else [])
  ++ (if totalRain < 5 then [irrigationMsg]
      else if totalRain > 20 then [drainageMsg] else [])
  ++ (if "Thunderstorm" ∈ conds then [stormMsg] else [])

/-- Finalisation of one day (lines 76-109): averages, rounding, rules. -/
def finalize (info : CropProfile) (d : Int) (g : Group) : Insight :=
  let avg_temp := g.temp_sum / (g.temp_count : ℚ)
  let avg_humidity := g.humidity_sum / (g.temp_count : ℚ)
  let total_rain := g.rain_sum
  { date := d
    avg_temp := roundTo1 avg_temp
    max_temp := g.max_temp.map roundTo1
    min_temp := g.min_temp.map roundTo1
    total_rain := roundTo1 total_rain
    avg_humidity := roundTo1 avg_humidity
    conditions := joinComma g.weather_conditions
    recommendations := recommendationsFor info g.max_temp avg_temp total_rain
      g.weather_conditions }

/-- `analyze_forecast` (lines 33-111). `forecast_data = none` models a falsy
payload (`if not forecast_data: return None`); `some items` models a payload
whose `"list"` entry holds `items`. `.error` models an uncaught `KeyError`. -/
def analyze_forecast (forecast_data : Option (List Obs)) (crop_type : String) :
    Except String (Option (List Insight)) :=
  match forecast_data with
  | none => .ok none
  | some items =>
    let crop_info := cropInfoOf crop_type
    match buildDaily items [] with
    | .error e => .error e
    | .ok daily => .ok (some (daily.map (fun p => finalize crop_info p.1 p.2)))

/-- Python `str.capitalize` (ASCII model). -/
def capitalize (s : String) : String :=
  match s.data with
  | [] => ""
  | c :: cs => String.mk (c.toUpper :: cs.map Char.toLower)

def noDataMessage : String := "No weather data available. Please try again later."

def headerFor (crop_type : String) : String :=
  "🌱 Weather Forecast for " ++ capitalize crop_type ++ " Farmers in Nyanza 🌱\n"

/-- Python `str(float)` is abstracted by the `ℚ` representation string; the
rendered digits are not load-bearing for any claim. -/
def showQ (q : ℚ) : String := toString q

def showMin (m : Option ℚ) : String :=
  match m with
  | none => "inf"
  | some q => showQ q

def showMax (m : Option ℚ) : String :=
  match m with
  | none => "-inf"
  | some q => showQ q

/-- One per-day block of the rendered message (lines 122-134). -/
def dayMessage (day : Insight) : String :=
  "\n📅 " ++ toString day.date ++ "\n"
  ++ "🌡️ Temp: " ++ showMin day.min_temp ++ "°C - " ++ showMax day.max_temp
  ++ "°C (Avg: " ++ showQ day.avg_temp ++ "°C)\n"
  ++ "💧 Rain: " ++ showQ day.total_rain ++ "mm | Humidity: "
  ++ showQ day.avg_humidity ++ "%\n"
  ++ "⛅ Conditions: " ++ day.conditions ++ "\n"
  ++ (if day.recommendations.isEmpty then
        "\n✅ Conditions look favorable for your crops!\n"
      else
        "\n🔍 Recommendations:\n"
        ++ String.join (day.recommendations.map (fun r => "- " ++ r ++ "\n")))

/-- `format_insights_for_farmers` (lines 113-136). `if not insights` is true for
both `None` and the empty list. -/
def format_insights_for_farmers (insights : Option (List Insight))
    (crop_type : String) : String :=
  match insights with
  | none => noDataMessage
  | some [] => noDataMessage
  | some l => String.intercalate "\n" (headerFor crop_type :: l.map dayMessage)

/-! ### Specification-side helpers (used only to state properties) -/

/-- The calendar date of one observation, when its timestamp is present. -/
def obsDate (o : Obs) : Option Int := o.dt.map dayOf

/-- Temperatures of the observations falling on calendar date `d`. -/
def tempsOfDate (items : List Obs) (d : Int) : List ℚ :=
  items.filterMap (fun o => if obsDate o = some d then o.main_temp else none)

/-- Rain contributions of the observations falling on calendar date `d`. -/
def rainsOfDate (items : List Obs) (d : Int) : List ℚ :=
  items.filterMap (fun o => if obsDate o = some d then some (rainOf o) else none)

/-- Humidities of the observations falling on calendar date `d`. -/
def humsOfDate (items : List Obs) (d : Int) : List ℚ :=
  items.filterMap (fun o => if obsDate o = some d then o.main_humidity else none)

/-- All dates of a list of observations, one per observation with a timestamp. -/
def datesOf (items : List Obs) : List Int := items.filterMap obsDate

/-- Deduplication keeping the first occurrence of each element. -/
def dedupFirst (l : List Int) : List Int :=
  l.foldl (fun acc d => if d ∈ acc then acc else acc ++ [d]) []

/-- The dates of the insight list of an `analyze_forecast` result. -/
def insightDates (r : Except String (Option (List Insight))) : List Int :=
  match r with
  | .ok (some l) => l.map Insight.date
  | _ => []

/-- The reported average temperatures of an `analyze_forecast` result. -/
def avgTemps (r : Except String (Option (List Insight))) : List ℚ :=
  match r with
  | .ok (some l) => l.map Insight.avg_temp
  | _ => []

/-- Strictly increasing date sequence. -/
def chronological (l : List Int) : Prop := l.Pairwise (· < ·)

/-- All keys Python reads unconditionally are present on this observation. -/
def validObs (o : Obs) : Prop :=
  o.dt ≠ none ∧ o.main_temp ≠ none ∧ o.main_humidity ≠ none ∧ o.weather ≠ none

instance (o : Obs) : Decidable (validObs o) := by
  unfold validObs; infer_instance

/-- The accumulator statistics of one dict entry are exactly the statistics of
the observations of its date. -/
def GroupMatches (items : List Obs) (d : Int) (g : Group) : Prop :=
  g.temp_sum = (tempsOfDate items d).sum ∧
  g.temp_count = (tempsOfDate items d).length ∧
  g.max_temp = (tempsOfDate items d).foldl accMax none ∧
  g.min_temp = (tempsOfDate items d).foldl accMin none ∧
  g.rain_sum = (rainsOfDate items d).sum ∧
  g.humidity_sum = (humsOfDate items d).sum

/-- Loop invariant of the aggregation loop after processing the prefix `p`. -/
def Inv (p : List Obs) (acc : Daily) : Prop :=
  keysOf acc = dedupFirst (datesOf p) ∧
  (∀ d g, (d, g) ∈ acc → GroupMatches p d g) ∧
  ∀ o ∈ p, validObs o

/-- An observation with all unconditionally-read keys present and no rain block. -/
def mkObs (t : Int) (temp hum : ℚ) : Obs := ⟨some t, some temp, some hum, none, some []⟩

/-- Replace the rain block of an observation. -/
def withRain (o : Obs) (r : Option (Option ℚ)) : Obs := { o with rain_3h := r }

/-- An insight of a single-observation day without rain or special conditions. -/
def simpleIns (d : Int) (t h : ℚ) (recs : List String) : Insight :=
  ⟨d, t, some t, some t, 0, h, "", recs⟩

/-! Concrete inputs used to instantiate the theorems below. -/

def c1items : List Obs := [mkObs 0 36 50]

def c1ins : Insight := simpleIns 0 36 50 [heatMsg, irrigationMsg]

def c4items : List Obs := [mkObs 86400 10 50, mkObs 0 10 50]

def c4ins : List Insight :=
  [simpleIns 1 10 50 [coldMsg, irrigationMsg], simpleIns 0 10 50 [coldMsg, irrigationMsg]]

def c5items : List Obs := [mkObs 0 1 50, mkObs 0 1 50, mkObs 0 2 50]

def c5ins : Insight := ⟨0, 13/10, some 2, some 1, 0, 50, "", [coldMsg, irrigationMsg]⟩

def c6badObs : Obs := ⟨some 0, none, some 50, none, some []⟩

def c8items : List Obs := [mkObs 0 10 50, mkObs 86400 10 50]

def c8ins : List Insight :=
  [simpleIns 0 10 50 [coldMsg, irrigationMsg], simpleIns 1 10 50 [coldMsg, irrigationMsg]]

def c10ins : Insight := simpleIns 0 10 50 [coldMsg, irrigationMsg]

/-! ### Rounding lemmas -/

lemma rhe_ge (q : ℚ) : ⌊q⌋ ≤ rhe q := by
  unfold rhe; split_ifs <;> omega

lemma rhe_le (q : ℚ) : rhe q ≤ ⌊q⌋ + 1 := by
  unfold rhe; split_ifs <;> omega

lemma rhe_mono {x y : ℚ} (h : x ≤ y) : rhe x ≤ rhe y := by
  rcases eq_or_lt_of_le (Int.floor_le_floor h) with hf | hf
  · unfold rhe
    rw [← hf]
    split_ifs <;> first | omega | (exfalso; push_cast at *; linarith)
  · calc rhe x ≤ ⌊x⌋ + 1 := rhe_le x
    _ ≤ ⌊y⌋ := by omega
    _ ≤ rhe y := rhe_ge y

lemma roundTo1_mono {x y : ℚ} (h : x ≤ y) : roundTo1 x ≤ roundTo1 y := by
  unfold roundTo1
  have h1 : rhe (10 * x) ≤ rhe (10 * y) := rhe_mono (by linarith)
  have h2 : ((rhe (10 * x) : ℤ) : ℚ) ≤ ((rhe (10 * y) : ℤ) : ℚ) := by exact_mod_cast h1
  linarith

/-! ### Running max / min lemmas -/

lemma foldl_accMax_bound :
    ∀ (l : List ℚ) (m : Option ℚ) (M : ℚ), l.foldl accMax m = some M →
      (∀ x ∈ l, x ≤ M) ∧ ∀ y, m = some y → y ≤ M := by
  intro l
  induction l with
  | nil =>
    intro m M h
    refine ⟨by simp, fun y hy => ?_⟩
    rw [hy] at h
    simp only [List.foldl_nil, Option.some.injEq] at h
    exact le_of_eq h
  | cons a t ih =>
    intro m M h
    simp only [List.foldl_cons] at h
    obtain ⟨ht, hacc⟩ := ih (accMax m a) M h
    have haM : a ≤ M := by
      cases m with
      | none => exact hacc a rfl
      | some y => exact le_trans (le_max_right y a) (hacc (max y a) rfl)
    refine ⟨fun x hx => ?_, fun y hy => ?_⟩
    · rcases List.mem_cons.mp hx with hx1 | hx2
      · rw [hx1]; exact haM
      · exact ht x hx2
    · subst hy
      exact le_trans (le_max_left y a) (hacc (max y a) rfl)

lemma foldl_accMin_bound :
    ∀ (l : List ℚ) (m : Option ℚ) (M : ℚ), l.foldl accMin m = some M →
      (∀ x ∈ l, M ≤ x) ∧ ∀ y, m = some y → M ≤ y := by
  intro l
  induction l with
  | nil =>
    intro m M h
    refine ⟨by simp, fun y hy => ?_⟩
    rw [hy] at h
    simp only [List.foldl_nil, Option.some.injEq] at h
    exact le_of_eq h.symm
  | cons a t ih =>
    intro m M h
    simp only [List.foldl_cons] at h
    obtain ⟨ht, hacc⟩ := ih (accMin m a) M h
    have haM : M ≤ a := by
      cases m with
      | none => exact hacc a rfl
      | some y => exact le_trans (hacc (min y a) rfl) (min_le_right y a)
    refine ⟨fun x hx => ?_, fun y hy => ?_⟩
    · rcases List.mem_cons.mp hx with hx1 | hx2
      · rw [hx1]; exact haM
      · exact ht x hx2
    · subst hy
      exact le_trans (hacc (min y a) rfl) (min_le_left y a)

lemma foldl_accMax_some : ∀ (l : List ℚ) (y : ℚ), ∃ M, l.foldl accMax (some y) = some M := by
  intro l
  induction l with
  | nil => exact fun y => ⟨y, rfl⟩
  | cons a t ih => exact fun y => ih (max y a)

lemma foldl_accMin_some : ∀ (l : List ℚ) (y : ℚ), ∃ M, l.foldl accMin (some y) = some M := by
  intro l
  induction l with
  | nil => exact fun y => ⟨y, rfl⟩
  | cons a t ih => exact fun y => ih (min y a)

lemma foldl_accMax_ne_nil {l : List ℚ} (h : l ≠ []) : ∃ M, l.foldl accMax none = some M := by
  cases l with
  | nil => exact absurd rfl h
  | cons a t => exact foldl_accMax_some t a

lemma foldl_accMin_ne_nil {l : List ℚ} (h : l ≠ []) : ∃ M, l.foldl accMin none = some M := by
  cases l with
  | nil => exact absurd rfl h
  | cons a t => exact foldl_accMin_some t a

/-! ### Average bounds -/

lemma avg_le_of_forall_le {l : List ℚ} (hne : l ≠ []) {M : ℚ} (hub : ∀ x ∈ l, x ≤ M) :
    l.sum / (l.length : ℚ) ≤ M := by
  have hlen : 0 < (l.length : ℚ) := by
    have := List.length_pos.mpr hne
    exact_mod_cast this
  have h1 : l.sum ≤ l.length • M := List.sum_le_card_nsmul l M hub
  rw [nsmul_eq_mul] at h1
  rw [div_le_iff₀ hlen]
  linarith

lemma le_avg_of_forall_le {l : List ℚ} (hne : l ≠ []) {m : ℚ} (hlb : ∀ x ∈ l, m ≤ x) :
    m ≤ l.sum / (l.length : ℚ) := by
  have hlen : 0 < (l.length : ℚ) := by
    have := List.length_pos.mpr hne
    exact_mod_cast this
  have h1 : l.length • m ≤ l.sum := List.card_nsmul_le_sum l m hlb
  rw [nsmul_eq_mul] at h1
  rw [le_div_iff₀ hlen]
  linarith

/-! ### Dictionary-model lemmas -/

lemma keysOf_updateAt (d : Int) (f : Group → Group) (l : Daily) :
    keysOf (updateAt d f l) = keysOf l := by
  unfold keysOf updateAt
  rw [List.map_map]
  apply List.map_congr_left
  intro p _
  by_cases h : p.1 = d <;> simp [h]

lemma keysOf_maybeInit (d : Int) (l : Daily) :
    keysOf (maybeInit d l) = if d ∈ keysOf l then keysOf l else keysOf l ++ [d] := by
  unfold maybeInit
  split_ifs with h <;> simp [keysOf, h]

lemma updateAt_updateAt (d : Int) (f g : Group → Group) (l : Daily) :
    updateAt d f (updateAt d g l) = updateAt d (fun x => f (g x)) l := by
  unfold updateAt
  rw [List.map_map]
  apply List.map_congr_left
  intro p _
  by_cases h : p.1 = d <;> simp [h]

lemma mem_updateAt {d' : Int} {g' : Group} {d : Int} {f : Group → Group} {l : Daily}
    (h : (d', g') ∈ updateAt d f l) :
    ∃ g0, (d', g0) ∈ l ∧ ((d' = d ∧ g' = f g0) ∨ (d' ≠ d ∧ g' = g0)) := by
  obtain ⟨⟨pd, pg⟩, hp, he⟩ := List.mem_map.mp h
  dsimp only at he
  by_cases hd : pd = d
  · rw [if_pos hd] at he
    injection he with h1 h2
    subst h1
    exact ⟨pg, hp, Or.inl ⟨hd, h2.symm⟩⟩
  · rw [if_neg hd] at he
    injection he with h1 h2
    subst h1
    subst h2
    exact ⟨pg, hp, Or.inr ⟨hd, rfl⟩⟩

/-! ### First-occurrence deduplication lemmas -/

lemma dedupFirst_append_single (l : List Int) (d : Int) :
    dedupFirst (l ++ [d]) =
      if d ∈ dedupFirst l then dedupFirst l else dedupFirst l ++ [d] := by
  unfold dedupFirst
  rw [List.foldl_append]
  simp

lemma mem_foldl_dedup (l : List Int) :
    ∀ (acc : List Int) (x : Int),
      x ∈ l.foldl (fun acc d => if d ∈ acc then acc else acc ++ [d]) acc ↔
        x ∈ acc ∨ x ∈ l := by
  induction l with
  | nil => simp
  | cons a t ih =>
    intro acc x
    simp only [List.foldl_cons]
    rw [ih]
    by_cases h : a ∈ acc
    · simp only [if_pos h, List.mem_cons]
      constructor
      · rintro (h1 | h2)
        · exact Or.inl h1
        · exact Or.inr (Or.inr h2)
      · rintro (h1 | h2 | h3)
        · exact Or.inl h1
        · exact Or.inl (h2 ▸ h)
        · exact Or.inr h3
    · simp only [if_neg h, List.mem_append, List.mem_singleton, List.mem_cons]
      tauto

lemma mem_dedupFirst {x : Int} {l : List Int} : x ∈ dedupFirst l ↔ x ∈ l := by
  unfold dedupFirst
  rw [mem_foldl_dedup]
  simp

lemma nodup_foldl_dedup (l : List Int) :
    ∀ acc : List Int, acc.Nodup →
      (l.foldl (fun acc d => if d ∈ acc then acc else acc ++ [d]) acc).Nodup := by
  induction l with
  | nil => exact fun acc h => h
  | cons a t ih =>
    intro acc hacc
    simp only [List.foldl_cons]
    by_cases h : a ∈ acc
    · rw [if_pos h]; exact ih acc hacc
    · rw [if_neg h]
      apply ih
      simp [List.nodup_append, hacc, h]

lemma nodup_dedupFirst (l : List Int) : (dedupFirst l).Nodup :=
  nodup_foldl_dedup l [] List.nodup_nil

/-! ### Per-date statistics lemmas -/

lemma tempsOfDate_append_same {items : List Obs} {o : Obs} {d : Int} {temp : ℚ}
    (hdate : obsDate o = some d) (htemp : o.main_temp = some temp) :
    tempsOfDate (items ++ [o]) d = tempsOfDate items d ++ [temp] := by
  unfold tempsOfDate
  rw [List.filterMap_append]
  simp [hdate, htemp]

lemma tempsOfDate_append_other {items : List Obs} {o : Obs} {d : Int}
    (hdate : obsDate o ≠ some d) :
    tempsOfDate (items ++ [o]) d = tempsOfDate items d := by
  unfold tempsOfDate
  rw [List.filterMap_append]
  simp [hdate]

lemma rainsOfDate_append_same {items : List Obs} {o : Obs} {d : Int}
    (hdate : obsDate o = some d) :
    rainsOfDate (items ++ [o]) d = rainsOfDate items d ++ [rainOf o] := by
  unfold rainsOfDate
  rw [List.filterMap_append]
  simp [hdate]

lemma rainsOfDate_append_other {items : List Obs} {o : Obs} {d : Int}
    (hdate : obsDate o ≠ some d) :
    rainsOfDate (items ++ [o]) d = rainsOfDate items d := by
  unfold rainsOfDate
  rw [List.filterMap_append]
  simp [hdate]

lemma humsOfDate_append_same {items : List Obs} {o : Obs} {d : Int} {hm : ℚ}
    (hdate : obsDate o = some d) (hhm : o.main_humidity = some hm) :
    humsOfDate (items ++ [o]) d = humsOfDate items d ++ [hm] := by
  unfold humsOfDate
  rw [List.filterMap_append]
  simp [hdate, hhm]

lemma humsOfDate_append_other {items : List Obs} {o : Obs} {d : Int}
    (hdate : obsDate o ≠ some d) :
    humsOfDate (items ++ [o]) d = humsOfDate items d := by
  unfold humsOfDate
  rw [List.filterMap_append]
  simp [hdate]

lemma datesOf_append {items : List Obs} {o : Obs} {d : Int} (hdate : obsDate o = some d) :
    datesOf (items ++ [o]) = datesOf items ++ [d] := by
  unfold datesOf
  rw [List.filterMap_append]
  simp [hdate]

lemma ofDate_nil {p : List Obs} {d : Int} (h : ∀ o ∈ p, obsDate o ≠ some d) :
    tempsOfDate p d = [] ∧ rainsOfDate p d = [] ∧ humsOfDate p d = [] := by
  unfold tempsOfDate rainsOfDate humsOfDate
  refine ⟨?_, ?_, ?_⟩ <;>
    · rw [List.filterMap_eq_nil_iff]
      intro o ho
      simp [h o ho]

lemma not_mem_datesOf {p : List Obs} {d : Int} (h : d ∉ datesOf p) :
    ∀ o ∈ p, obsDate o ≠ some d := by
  intro o ho hod
  exact h (List.mem_filterMap.mpr ⟨o, ho, hod⟩)

/-! ### Invariant preservation -/

lemma GroupMatches_init {p : List Obs} {d : Int} (h : ∀ o ∈ p, obsDate o ≠ some d) :
    GroupMatches p d initGroup := by
  obtain ⟨ht, hr, hh⟩ := ofDate_nil h
  unfold GroupMatches initGroup
  rw [ht, hr, hh]
  simp

lemma GroupMatches_append_other {p : List Obs} {o : Obs} {d : Int} {g : Group}
    (hg : GroupMatches p d g) (ho : obsDate o ≠ some d) :
    GroupMatches (p ++ [o]) d g := by
  unfold GroupMatches at *
  rw [tempsOfDate_append_other ho, rainsOfDate_append_other ho, humsOfDate_append_other ho]
  exact hg

lemma GroupMatches_append_same {p : List Obs} {o : Obs} {d : Int} {g : Group}
    {temp hm : ℚ} {ws : List String}
    (hg : GroupMatches p d g) (hdate : obsDate o = some d)
    (htemp : o.main_temp = some temp) (hhm : o.main_humidity = some hm) :
    GroupMatches (p ++ [o]) d (addConds ws (addHum hm (addRain (rainOf o) (addTemp temp g)))) := by
  obtain ⟨h1, h2, h3, h4, h5, h6⟩ := hg
  unfold GroupMatches
  rw [tempsOfDate_append_same hdate htemp, rainsOfDate_append_same hdate,
    humsOfDate_append_same hdate hhm]
  refine ⟨?_, ?_, ?_, ?_, ?_, ?_⟩ <;>
    simp [addConds, addHum, addRain, addTemp, h1, h2, h3, h4, h5, h6, List.foldl_append]

lemma mem_maybeInit {d' : Int} {g' : Group} {d : Int} {l : Daily}
    (h : (d', g') ∈ maybeInit d l) :
    (d', g') ∈ l ∨ (d' = d ∧ g' = initGroup ∧ d ∉ keysOf l) := by
  unfold maybeInit at h
  split_ifs at h with hd
  · exact Or.inl h
  · rcases List.mem_append.mp h with h1 | h2
    · exact Or.inl h1
    · rw [List.mem_singleton] at h2
      injection h2 with e1 e2
      exact Or.inr ⟨e1, e2, hd⟩

lemma step_ok_elim {acc : Daily} {o : Obs} {acc2 : Daily} (h : step acc o = .ok acc2) :
    ∃ t temp hm ws, o.dt = some t ∧ o.main_temp = some temp ∧
      o.main_humidity = some hm ∧ o.weather = some ws ∧
      acc2 = updateAt (dayOf t)
        (fun g => addConds ws (addHum hm (addRain (rainOf o) (addTemp temp g))))
        (maybeInit (dayOf t) acc) := by
  obtain ⟨dt, mt, mh, r, w⟩ := o
  cases dt with
  | none => simp [step] at h
  | some t =>
    cases mt with
    | none => simp [step] at h
    | some temp =>
      cases mh with
      | none => simp [step] at h
      | some hm =>
        cases w with
        | none => simp [step] at h
        | some ws =>
          refine ⟨t, temp, hm, ws, rfl, rfl, rfl, rfl, ?_⟩
          simp only [step] at h
          injection h with h2
          rw [← h2, updateAt_updateAt, updateAt_updateAt, updateAt_updateAt]

lemma step_ok_valid {acc : Daily} {o : Obs} {acc2 : Daily} (h : step acc o = .ok acc2) :
    validObs o := by
  obtain ⟨t, temp, hm, ws, h1, h2, h3, h4, _⟩ := step_ok_elim h
  exact ⟨by simp [h1], by simp [h2], by simp [h3], by simp [h4]⟩

lemma step_ok_of_valid {o : Obs} (acc : Daily) (h : validObs o) :
    ∃ acc2, step acc o = .ok acc2 := by
  obtain ⟨hdt, hmt, hmh, hw⟩ := h
  obtain ⟨t, ht⟩ := Option.ne_none_iff_exists'.mp hdt
  obtain ⟨temp, htemp⟩ := Option.ne_none_iff_exists'.mp hmt
  obtain ⟨hm, hhm⟩ := Option.ne_none_iff_exists'.mp hmh
  obtain ⟨ws, hws⟩ := Option.ne_none_iff_exists'.mp hw
  refine ⟨updateAt (dayOf t) (addConds ws) (updateAt (dayOf t) (addHum hm)
    (updateAt (dayOf t) (addRain (rainOf o))
      (updateAt (dayOf t) (addTemp temp) (maybeInit (dayOf t) acc)))), ?_⟩
  simp [step, ht, htemp, hhm, hws]

lemma Inv_step {p : List Obs} {acc : Daily} {o : Obs} {acc2 : Daily}
    (hInv : Inv p acc) (h : step acc o = .ok acc2) : Inv (p ++ [o]) acc2 := by
  obtain ⟨t, temp, hm, ws, hdt, htemp, hhm, hws, hacc2⟩ := step_ok_elim h
  have hdate : obsDate o = some (dayOf t) := by simp [obsDate, hdt]
  obtain ⟨hkeys, hmatch, hvalid⟩ := hInv
  refine ⟨?_, ?_, ?_⟩
  · rw [hacc2, keysOf_updateAt, keysOf_maybeInit, datesOf_append hdate,
      dedupFirst_append_single, hkeys]
  · intro d' g' hmem
    rw [hacc2] at hmem
    obtain ⟨g0, hg0mem, hcases⟩ := mem_updateAt hmem
    rcases hcases with ⟨hde, hge⟩ | ⟨hne, hge⟩
    · have hg0 : GroupMatches p d' g0 := by
        rcases mem_maybeInit hg0mem with hin | ⟨_, hinit, hnotin⟩
        · exact hmatch d' g0 hin
        · rw [hkeys] at hnotin
          rw [hinit]
          have h1 : d' ∉ datesOf p := by
            rw [hde]
            exact fun hc => hnotin (mem_dedupFirst.mpr hc)
          exact GroupMatches_init (not_mem_datesOf h1)
      rw [hge]
      have hdate2 : obsDate o = some d' := by rw [hdate, hde]
      exact GroupMatches_append_same hg0 hdate2 htemp hhm
    · rw [hge]
      have hg0 : GroupMatches p d' g0 := by
        rcases mem_maybeInit hg0mem with hin | ⟨hdd, _, _⟩
        · exact hmatch d' g0 hin
        · exact absurd hdd hne
      refine GroupMatches_append_other hg0 ?_
      rw [hdate]
      simp only [ne_eq, Option.some.injEq]
      exact fun hc => hne hc.symm
  · intro o' ho'
    rcases List.mem_append.mp ho' with h1 | h2
    · exact hvalid o' h1
    · rw [List.mem_singleton.mp h2]
      exact ⟨by simp [hdt], by simp [htemp], by simp [hhm], by simp [hws]⟩

lemma Inv_nil : Inv [] [] := by
  refine ⟨rfl, ?_, ?_⟩ <;> simp

lemma buildDaily_inv :
    ∀ (items p : List Obs) (acc res : Daily),
      buildDaily items acc = .ok res → Inv p acc → Inv (p ++ items) res := by
  intro items
  induction items with
  | nil =>
    intro p acc res h hI
    simp only [buildDaily, Except.ok.injEq] at h
    rw [← h]
    simpa using hI
  | cons o rest ih =>
    intro p acc res h hI
    simp only [buildDaily] at h
    cases hs : step acc o with
    | error e => rw [hs] at h; simp at h
    | ok acc2 =>
      rw [hs] at h
      have := ih (p ++ [o]) acc2 res h (Inv_step hI hs)
      rwa [List.append_assoc, List.singleton_append] at this

lemma buildDaily_invariant {items : List Obs} {res : Daily}
    (h : buildDaily items [] = .ok res) : Inv items res := by
  have := buildDaily_inv items [] [] res h Inv_nil
  simpa using this

lemma buildDaily_ok_valid :
    ∀ (items : List Obs) (acc res : Daily),
      buildDaily items acc = .ok res → ∀ o ∈ items, validObs o := by
  intro items
  induction items with
  | nil => simp
  | cons o rest ih =>
    intro acc res h o' ho'
    simp only [buildDaily] at h
    cases hs : step acc o with
    | error e => rw [hs] at h; simp at h
    | ok acc2 =>
      rw [hs] at h
      rcases List.mem_cons.mp ho' with h1 | h2
      · rw [h1]; exact step_ok_valid hs
      · exact ih acc2 res h o' h2

lemma buildDaily_ok_of_valid :
    ∀ (items : List Obs) (acc : Daily), (∀ o ∈ items, validObs o) →
      ∃ res, buildDaily items acc = .ok res := by
  intro items
  induction items with
  | nil => exact fun acc _ => ⟨acc, rfl⟩
  | cons o rest ih =>
    intro acc hv
    obtain ⟨acc2, hs⟩ := step_ok_of_valid acc (hv o (by simp))
    obtain ⟨res, hres⟩ := ih acc2 (fun o' ho' => hv o' (List.mem_cons_of_mem o ho'))
    exact ⟨res, by simp only [buildDaily]; rw [hs]; exact hres⟩

/-! ### Characterisation of `analyze_forecast` results -/

lemma analyze_ok_elim {items : List Obs} {crop : String} {r : Option (List Insight)}
    (h : analyze_forecast (some items) crop = .ok r) :
    ∃ daily, buildDaily items [] = .ok daily ∧
      r = some (daily.map (fun p => finalize (cropInfoOf crop) p.1 p.2)) := by
  cases hb : buildDaily items [] with
  | error e => simp [analyze_forecast, hb] at h
  | ok daily =>
    simp only [analyze_forecast, hb, Except.ok.injEq] at h
    exact ⟨daily, rfl, h.symm⟩

lemma finalize_date (info : CropProfile) (d : Int) (g : Group) :
    (finalize info d g).date = d := rfl

/-- The central characterisation: a successful `analyze_forecast` run produces one
insight per calendar date in first-occurrence order, each finalised from the
accumulator of exactly the observations of its own date. -/
lemma insight_spec {items : List Obs} {crop : String} {ins : List Insight}
    (h : analyze_forecast (some items) crop = .ok (some ins)) :
    ins.map Insight.date = dedupFirst (datesOf items) ∧
    (∀ o ∈ items, validObs o) ∧
    ∀ i ∈ ins, ∃ g, GroupMatches items i.date g ∧
      i = finalize (cropInfoOf crop) i.date g ∧ tempsOfDate items i.date ≠ [] := by
  obtain ⟨daily, hb, hr⟩ := analyze_ok_elim h
  simp only [Option.some.injEq] at hr
  obtain ⟨hkeys, hmatch, hvalid⟩ := buildDaily_invariant hb
  refine ⟨?_, hvalid, ?_⟩
  · rw [hr, List.map_map]
    have he : (Insight.date ∘ fun p : Int × Group => finalize (cropInfoOf crop) p.1 p.2) =
        Prod.fst := funext fun p => rfl
    rw [he, ← hkeys]
    rfl
  · intro i hi
    rw [hr] at hi
    obtain ⟨p, hp, hip⟩ := List.mem_map.mp hi
    have hd : i.date = p.1 := by
      rw [← hip]
      exact finalize_date _ _ _
    have hmem : (p.1, p.2) ∈ daily := by simpa using hp
    refine ⟨p.2, ?_, ?_, ?_⟩
    · rw [hd]; exact hmatch p.1 p.2 hmem
    · rw [hd, ← hip]
    · rw [hd]
      have hpd : p.1 ∈ keysOf daily := List.mem_map.mpr ⟨p, hp, rfl⟩
      rw [hkeys, mem_dedupFirst] at hpd
      obtain ⟨o, ho, hod⟩ := List.mem_filterMap.mp hpd
      obtain ⟨tv, htv⟩ := Option.ne_none_iff_exists'.mp (hvalid o ho).2.1
      have : tv ∈ tempsOfDate items p.1 :=
        List.mem_filterMap.mpr ⟨o, ho, by simp [hod, htv]⟩
      exact List.ne_nil_of_mem this

lemma finalize_avg (info : CropProfile) (d : Int) (g : Group) :
    (finalize info d g).avg_temp = roundTo1 (g.temp_sum / (g.temp_count : ℚ)) := rfl

lemma finalize_max (info : CropProfile) (d : Int) (g : Group) :
    (finalize info d g).max_temp = g.max_temp.map roundTo1 := rfl

lemma finalize_min (info : CropProfile) (d : Int) (g : Group) :
    (finalize info d g).min_temp = g.min_temp.map roundTo1 := rfl

lemma finalize_total_rain (info : CropProfile) (d : Int) (g : Group) :
    (finalize info d g).total_rain = roundTo1 g.rain_sum := rfl

lemma finalize_avg_humidity (info : CropProfile) (d : Int) (g : Group) :
    (finalize info d g).avg_humidity = roundTo1 (g.humidity_sum / (g.temp_count : ℚ)) := rfl

lemma finalize_recommendations (info : CropProfile) (d : Int) (g : Group) :
    (finalize info d g).recommendations =
      recommendationsFor info g.max_temp (g.temp_sum / (g.temp_count : ℚ))
        g.rain_sum g.weather_conditions := rfl

/-! ### Membership in the advisory list -/

lemma heat_mem_iff (info : CropProfile) (m : Option ℚ) (avg rain : ℚ)
    (conds : List String) :
    heatMsg ∈ recommendationsFor info m avg rain conds ↔ floatMaxGT m info.risk_temp := by
  unfold recommendationsFor
  split_ifs with h1 h2 h3 h4 h5 <;>
    simp_all [heatMsg, coldMsg, irrigationMsg, drainageMsg, stormMsg]

lemma cold_mem_iff (info : CropProfile) (m : Option ℚ) (avg rain : ℚ)
    (conds : List String) :
    coldMsg ∈ recommendationsFor info m avg rain conds ↔
      ¬ floatMaxGT m info.risk_temp ∧ avg < info.optimal_temp.1 := by
  unfold recommendationsFor
  split_ifs with h1 h2 h3 h4 h5 <;>
    simp_all [heatMsg, coldMsg, irrigationMsg, drainageMsg, stormMsg]

lemma irr_mem_iff (info : CropProfile) (m : Option ℚ) (avg rain : ℚ)
    (conds : List String) :
    irrigationMsg ∈ recommendationsFor info m avg rain conds ↔ rain < 5 := by
  unfold recommendationsFor
  split_ifs with h1 h2 h3 h4 h5 <;>
    simp_all [heatMsg, coldMsg, irrigationMsg, drainageMsg, stormMsg]

lemma drain_mem_iff (info : CropProfile) (m : Option ℚ) (avg rain : ℚ)
    (conds : List String) :
    drainageMsg ∈ recommendationsFor info m avg rain conds ↔ 20 < rain := by
  unfold recommendationsFor
  split_ifs with h1 h2 h3 h4 h5 <;>
    simp_all [heatMsg, coldMsg, irrigationMsg, drainageMsg, stormMsg] <;>
    linarith

/-! ### Evaluation helpers for concrete inputs -/

@[simp] lemma dayOf_zero : dayOf 0 = 0 := by decide

@[simp] lemma dayOf_86400 : dayOf 86400 = 1 := by decide

@[simp] lemma joinComma_nil : joinComma [] = "" := rfl

@[simp] lemma roundTo1_lit_0 : roundTo1 0 = 0 := by norm_num [roundTo1, rhe]

@[simp] lemma roundTo1_lit_1 : roundTo1 1 = 1 := by norm_num [roundTo1, rhe]

@[simp] lemma roundTo1_lit_2 : roundTo1 2 = 2 := by norm_num [roundTo1, rhe]

@[simp] lemma roundTo1_lit_10 : roundTo1 10 = 10 := by norm_num [roundTo1, rhe]

@[simp] lemma roundTo1_lit_36 : roundTo1 36 = 36 := by norm_num [roundTo1, rhe]

@[simp] lemma roundTo1_lit_50 : roundTo1 50 = 50 := by norm_num [roundTo1, rhe]

@[simp] lemma roundTo1_lit_four_thirds : roundTo1 (4/3) = 13/10 := by
  norm_num [roundTo1, rhe]

/-- Field-level consequences of a successful `analyze_forecast` run. -/
lemma insight_fields {items : List Obs} {crop : String} {ins : List Insight}
    (h : analyze_forecast (some items) crop = .ok (some ins))
    {i : Insight} (hi : i ∈ ins) :
    ∃ g, GroupMatches items i.date g ∧ tempsOfDate items i.date ≠ [] ∧
      i.avg_temp = roundTo1 (g.temp_sum / (g.temp_count : ℚ)) ∧
      i.max_temp = g.max_temp.map roundTo1 ∧
      i.min_temp = g.min_temp.map roundTo1 ∧
      i.total_rain = roundTo1 g.rain_sum ∧
      i.avg_humidity = roundTo1 (g.humidity_sum / (g.temp_count : ℚ)) ∧
      i.recommendations = recommendationsFor (cropInfoOf crop) g.max_temp
        (g.temp_sum / (g.temp_count : ℚ)) g.rain_sum g.weather_conditions := by
  obtain ⟨_, _, hspec⟩ := insight_spec h
  obtain ⟨g, hg, hfin, hne⟩ := hspec i hi
  refine ⟨g, hg, hne, ?_, ?_, ?_, ?_, ?_, ?_⟩
  · conv_lhs => rw [hfin]
    exact finalize_avg _ _ _
  · conv_lhs => rw [hfin]
    exact finalize_max _ _ _
  · conv_lhs => rw [hfin]
    exact finalize_min _ _ _
  · conv_lhs => rw [hfin]
    exact finalize_total_rain _ _ _
  · conv_lhs => rw [hfin]
    exact finalize_avg_humidity _ _ _
  · conv_lhs => rw [hfin]
    exact finalize_recommendations _ _ _

/-! ### Concrete evaluations -/

lemma c1eval : analyze_forecast (some c1items) "maize" = .ok (some [c1ins]) := by
  simp only [analyze_forecast, buildDaily, step, c1items, c1ins, mkObs, maybeInit,
    keysOf, updateAt, addTemp, addRain, addHum, addConds, rainOf, accMax, accMin,
    condUnion, initGroup, dayOf_zero, finalize, simpleIns, cropInfoOf, crop_data,
    maizeProfile, recommendationsFor, floatMaxGT]
  norm_num [Insight.mk.injEq]

set_option maxRecDepth 4000 in
lemma c4eval : analyze_forecast (some c4items) "maize" = .ok (some c4ins) := by
  simp only [analyze_forecast, buildDaily, step, c4items, c4ins, mkObs, maybeInit,
    keysOf, updateAt, addTemp, addRain, addHum, addConds, rainOf, accMax, accMin,
    condUnion, initGroup, dayOf_zero, dayOf_86400, finalize, simpleIns, cropInfoOf,
    crop_data, maizeProfile, recommendationsFor, floatMaxGT]
  norm_num [Insight.mk.injEq]

set_option maxRecDepth 4000 in
lemma c5eval : analyze_forecast (some c5items) "maize" = .ok (some [c5ins]) := by
  simp only [analyze_forecast, buildDaily, step, c5items, c5ins, mkObs, maybeInit,
    keysOf, updateAt, addTemp, addRain, addHum, addConds, rainOf, accMax, accMin,
    condUnion, initGroup, dayOf_zero, finalize, cropInfoOf, crop_data,
    maizeProfile, recommendationsFor, floatMaxGT]
  norm_num [Insight.mk.injEq, max_def, min_def]

set_option maxRecDepth 4000 in
lemma c8eval : analyze_forecast (some c8items) "maize" = .ok (some c8ins) := by
  simp only [analyze_forecast, buildDaily, step, c8items, c8ins, mkObs, maybeInit,
    keysOf, updateAt, addTemp, addRain, addHum, addConds, rainOf, accMax, accMin,
    condUnion, initGroup, dayOf_zero, dayOf_86400, finalize, simpleIns, cropInfoOf,
    crop_data, maizeProfile, recommendationsFor, floatMaxGT]
  norm_num [Insight.mk.injEq]

lemma c10eval : analyze_forecast (some [mkObs 0 10 50]) "maize" =
    .ok (some [c10ins]) := by
  simp only [analyze_forecast, buildDaily, step, c10ins, mkObs, maybeInit,
    keysOf, updateAt, addTemp, addRain, addHum, addConds, rainOf, accMax, accMin,
    condUnion, initGroup, dayOf_zero, finalize, simpleIns, cropInfoOf, crop_data,
    maizeProfile, recommendationsFor, floatMaxGT]
  norm_num [Insight.mk.injEq]

/-! ### Claim theorems -/

/-- C1: for every daily summary whose max temperature exceeds the crop profile
risk threshold, the advisory list contains the heat-stress warning and never the
cold-stress warning; and in every insight produced by `analyze_forecast` at most
one of the two temperature advisories appears. -/
theorem C1_heat_excludes_cold :
    (∀ (info : CropProfile) (m : Option ℚ) (avg rain : ℚ) (conds : List String),
        floatMaxGT m info.risk_temp →
          heatMsg ∈ recommendationsFor info m avg rain conds ∧
          coldMsg ∉ recommendationsFor info m avg rain conds) ∧
    ∀ (items : List Obs) (crop : String) (ins : List Insight),
      analyze_forecast (some items) crop = .ok (some ins) →
      ∀ i ∈ ins,
        ¬(heatMsg ∈ i.recommendations ∧ coldMsg ∈ i.recommendations) := by
  constructor
  · intro info m avg rain conds h
    refine ⟨(heat_mem_iff info m avg rain conds).mpr h, fun hc => ?_⟩
    exact ((cold_mem_iff info m avg rain conds).mp hc).1 h
  · intro items crop ins h i hi
    obtain ⟨g, _, _, _, _, _, _, _, hrec⟩ := insight_fields h hi
    rintro ⟨hh, hc⟩
    rw [hrec] at hh hc
    exact ((cold_mem_iff _ _ _ _ _).mp hc).1 ((heat_mem_iff _ _ _ _ _).mp hh)

/-- Witness for C1 at a hot maize day (max temperature 36 over threshold 35). -/
theorem C1_heat_excludes_cold_witness :
    (heatMsg ∈ recommendationsFor maizeProfile (some 36) 36 0 [] ∧
      coldMsg ∉ recommendationsFor maizeProfile (some 36) 36 0 []) ∧
    ¬(heatMsg ∈ c1ins.recommendations ∧ coldMsg ∈ c1ins.recommendations) := by
  refine ⟨C1_heat_excludes_cold.1 maizeProfile (some 36) 36 0 [] ?_,
    C1_heat_excludes_cold.2 c1items "maize" [c1ins] c1eval c1ins (by simp)⟩
  show floatMaxGT (some 36) maizeProfile.risk_temp
  norm_num [floatMaxGT, maizeProfile]

/-- C2: the irrigation advisory is emitted iff total rain is strictly below 5mm
and the drainage advisory iff total rain is strictly above 20mm; at exactly 5mm
no irrigation advisory and at exactly 20mm no drainage advisory is emitted. -/
theorem C2_rain_thresholds :
    ∀ (info : CropProfile) (m : Option ℚ) (avg rain : ℚ) (conds : List String),
      (irrigationMsg ∈ recommendationsFor info m avg rain conds ↔ rain < 5) ∧
      (drainageMsg ∈ recommendationsFor info m avg rain conds ↔ 20 < rain) ∧
      irrigationMsg ∉ recommendationsFor info m avg 5 conds ∧
      drainageMsg ∉ recommendationsFor info m avg 20 conds := by
  intro info m avg rain conds
  refine ⟨irr_mem_iff _ _ _ _ _, drain_mem_iff _ _ _ _ _, ?_, ?_⟩
  · rw [irr_mem_iff]
    norm_num
  · rw [drain_mem_iff]
    norm_num

/-- C3 counterexample: the rendered no-data message is a fixed literal, but it is
not the literal string "no data available". -/
theorem C3_no_data_literal_counterexample :
    analyze_forecast (some []) "maize" = .ok (some []) ∧
    format_insights_for_farmers (some []) "maize" ≠ "no data available" ∧
    format_insights_for_farmers (some []) "maize" =
      "No weather data available. Please try again later." := by
  refine ⟨rfl, ?_, rfl⟩
  intro hc
  have h2 : noDataMessage = "no data available" := hc
  simp [noDataMessage] at h2

/-- C3 (amended): an empty observation list yields an empty insight list, not an
error, and rendering it (like rendering a falsy result) produces the fixed
literal "No weather data available. Please try again later.". -/
theorem C3_empty_input_message :
    ∀ crop : String,
      analyze_forecast (some []) crop = .ok (some []) ∧
      format_insights_for_farmers (some []) crop = noDataMessage ∧
      format_insights_for_farmers none crop = noDataMessage ∧
      noDataMessage = "No weather data available. Please try again later." :=
  fun _ => ⟨rfl, rfl, rfl, rfl⟩

/-- C4 counterexample: with the two calendar dates supplied out of order, the
insight list (hence the rendered block sequence) is not in chronological order. -/
theorem C4_chronological_counterexample :
    insightDates (analyze_forecast (some c4items) "maize") = [1, 0] ∧
    ¬ chronological [1, 0] := by
  refine ⟨?_, ?_⟩
  · rw [c4eval]
    rfl
  · intro hch
    have h0 := (List.pairwise_cons.mp hch).1 0 (by simp)
    omega

/-- C4 (amended): the per-day blocks of the rendered output follow the insight
list, whose dates appear in first-occurrence order of the input observations
(deterministically); chronological order holds only when the input is so
ordered. -/
theorem C4_rendered_day_order :
    ∀ (items : List Obs) (crop : String) (ins : List Insight),
      analyze_forecast (some items) crop = .ok (some ins) →
      ins.map Insight.date = dedupFirst (datesOf items) ∧
      (ins ≠ [] → format_insights_for_farmers (some ins) crop =
        String.intercalate "\n" (headerFor crop :: ins.map dayMessage)) := by
  intro items crop ins h
  refine ⟨(insight_spec h).1, ?_⟩
  intro hne
  cases ins with
  | nil => exact absurd rfl hne
  | cons i t => rfl

/-- Witness for C4 at the two-day unordered input. -/
theorem C4_rendered_day_order_witness :
    c4ins.map Insight.date = dedupFirst (datesOf c4items) ∧
    format_insights_for_farmers (some c4ins) "maize" =
      String.intercalate "\n" (headerFor "maize" :: c4ins.map dayMessage) := by
  have H := C4_rendered_day_order c4items "maize" c4ins c4eval
  exact ⟨H.1, H.2 (by simp [c4ins])⟩

/-- C5 counterexample: three same-day observations with temperatures 1, 1, 2 give
a reported average of 1.3, not the exact arithmetic mean 4/3. -/
theorem C5_rounded_average_counterexample :
    avgTemps (analyze_forecast (some c5items) "maize") = [13/10] ∧
    tempsOfDate c5items 0 = [1, 1, 2] ∧
    (13/10 : ℚ) ≠ (1 + 1 + 2) / 3 := by
  refine ⟨?_, ?_, by norm_num⟩
  · rw [c5eval]
    rfl
  · simp [tempsOfDate, c5items, mkObs, obsDate]

/-- C5 (amended): the reported `avg_temp` of every insight equals the arithmetic
mean of the temperatures of its date's observations, rounded to one decimal. -/
theorem C5_avg_temp_rounded_mean :
    ∀ (items : List Obs) (crop : String) (ins : List Insight),
      analyze_forecast (some items) crop = .ok (some ins) →
      ∀ i ∈ ins,
        i.avg_temp = roundTo1 ((tempsOfDate items i.date).sum /
          ((tempsOfDate items i.date).length : ℚ)) := by
  intro items crop ins h i hi
  obtain ⟨g, hg, _, havg, _⟩ := insight_fields h hi
  rw [havg, hg.1, hg.2.1]

/-- Witness for C5 at the 1, 1, 2 input. -/
theorem C5_avg_temp_rounded_mean_witness :
    c5ins.avg_temp = roundTo1 ((tempsOfDate c5items c5ins.date).sum /
      ((tempsOfDate c5items c5ins.date).length : ℚ)) :=
  C5_avg_temp_rounded_mean c5items "maize" [c5ins] c5eval c5ins (by simp)

/-- C6: an absent temperature key makes `analyze_forecast` fail with an error
surfaced to the caller; an absent rain block contributes zero precipitation and
never causes an error. -/
theorem C6_missing_fields :
    (∀ (items : List Obs) (crop : String), (∃ o ∈ items, o.main_temp = none) →
      ∃ e, analyze_forecast (some items) crop = .error e) ∧
    (∀ o : Obs, o.rain_3h = none →
      rainOf o = 0 ∧ ∀ acc, step acc o = step acc (withRain o (some (some 0)))) ∧
    ∀ (items : List Obs) (crop : String), (∀ o ∈ items, validObs o) →
      ∃ r, analyze_forecast (some items) crop = .ok r := by
  refine ⟨?_, ?_, ?_⟩
  · rintro items crop ⟨o, ho, hto⟩
    cases hb : buildDaily items [] with
    | error e => exact ⟨e, by simp [analyze_forecast, hb]⟩
    | ok daily =>
      have hv := buildDaily_ok_valid items [] daily hb o ho
      exact absurd hto hv.2.1
  · intro o hr
    obtain ⟨dt, mt, mh, r, w⟩ := o
    cases r with
    | some rr => simp at hr
    | none =>
      refine ⟨rfl, ?_⟩
      intro acc
      cases dt <;> cases mt <;> cases mh <;> cases w <;>
        simp [step, withRain, rainOf]
  · intro items crop hv
    obtain ⟨res, hb⟩ := buildDaily_ok_of_valid items [] hv
    exact ⟨some (res.map (fun p => finalize (cropInfoOf crop) p.1 p.2)),
      by simp [analyze_forecast, hb]⟩

/-- Witness for C6: a temperature-less observation errors, a rain-less valid
observation is processed as zero rain without error. -/
theorem C6_missing_fields_witness :
    (∃ e, analyze_forecast (some [c6badObs]) "maize" = .error e) ∧
    (rainOf (mkObs 0 10 50) = 0 ∧
      step [] (mkObs 0 10 50) = step [] (withRain (mkObs 0 10 50) (some (some 0)))) ∧
    ∃ r, analyze_forecast (some [mkObs 0 10 50]) "maize" = .ok r := by
  refine ⟨C6_missing_fields.1 [c6badObs] "maize" ⟨c6badObs, by simp, rfl⟩,
    ⟨(C6_missing_fields.2.1 (mkObs 0 10 50) rfl).1,
     (C6_missing_fields.2.1 (mkObs 0 10 50) rfl).2 []⟩,
    C6_missing_fields.2.2 [mkObs 0 10 50] "maize" ?_⟩
  intro o ho
  rw [List.mem_singleton.mp ho]
  simp [validObs, mkObs]

/-- C7: an unknown crop name falls back to the maize profile
(optimal 20-30, water needs 500, risk 35) and `analyze_forecast` behaves exactly
as with "maize". -/
theorem C7_unknown_crop_default :
    ∀ (name : String) (fd : Option (List Obs)), crop_data name = none →
      cropInfoOf name = maizeProfile ∧
      analyze_forecast fd name = analyze_forecast fd "maize" ∧
      maizeProfile = ⟨(20, 30), 500, 35⟩ := by
  intro name fd h
  have hc : cropInfoOf name = maizeProfile := by
    rw [cropInfoOf, h]
    rfl
  refine ⟨hc, ?_, rfl⟩
  cases fd with
  | none => rfl
  | some items =>
    simp only [analyze_forecast, hc]
    rfl

/-- Witness for C7 at the unknown crop name "wheat". -/
theorem C7_unknown_crop_default_witness :
    cropInfoOf "wheat" = maizeProfile ∧
    analyze_forecast (some [mkObs 0 10 50]) "wheat" =
      analyze_forecast (some [mkObs 0 10 50]) "maize" ∧
    maizeProfile = ⟨(20, 30), 500, 35⟩ :=
  C7_unknown_crop_default "wheat" (some [mkObs 0 10 50]) (by simp [crop_data])

/-- C8: every observation contributes to exactly one daily summary, the one of
its timestamp's calendar date: insight dates are duplicate-free, cover every
observation date, number exactly the distinct dates, and each insight's
statistics are computed only from its own date's observations. -/
theorem C8_partition :
    ∀ (items : List Obs) (crop : String) (ins : List Insight),
      analyze_forecast (some items) crop = .ok (some ins) →
      (ins.map Insight.date).Nodup ∧
      (∀ o ∈ items, ∀ t, o.dt = some t → dayOf t ∈ ins.map Insight.date) ∧
      ins.length = (dedupFirst (datesOf items)).length ∧
      ∀ i ∈ ins,
        i.avg_temp = roundTo1 ((tempsOfDate items i.date).sum /
          ((tempsOfDate items i.date).length : ℚ)) ∧
        i.total_rain = roundTo1 (rainsOfDate items i.date).sum ∧
        i.avg_humidity = roundTo1 ((humsOfDate items i.date).sum /
          ((tempsOfDate items i.date).length : ℚ)) := by
  intro items crop ins h
  obtain ⟨hdates, hvalid, hspec⟩ := insight_spec h
  refine ⟨?_, ?_, ?_, ?_⟩
  · rw [hdates]
    exact nodup_dedupFirst _
  · intro o ho t ht
    rw [hdates, mem_dedupFirst]
    exact List.mem_filterMap.mpr ⟨o, ho, by simp [obsDate, ht]⟩
  · have hl := congrArg List.length hdates
    rwa [List.length_map] at hl
  · intro i hi
    obtain ⟨g, hg, _, havg, _, _, hrain, hhum, _⟩ := insight_fields h hi
    obtain ⟨h1, h2, _, _, h5, h6⟩ := hg
    refine ⟨?_, ?_, ?_⟩
    · rw [havg, h1, h2]
    · rw [hrain, h5]
    · rw [hhum, h6, h2]

/-- Witness for C8 at an input spanning two calendar dates. -/
theorem C8_partition_witness :
    (c8ins.map Insight.date).Nodup ∧
    dayOf 0 ∈ c8ins.map Insight.date ∧
    c8ins.length = (dedupFirst (datesOf c8items)).length := by
  have H := C8_partition c8items "maize" c8ins c8eval
  exact ⟨H.1, H.2.1 (mkObs 0 10 50) (by simp [c8items]) 0 rfl, H.2.2.1⟩

/-- C9: `analyze_forecast` and the renderer are pure functions of their inputs -
two invocations on the same arguments return identical results. -/
theorem C9_purity :
    ∀ (fd : Option (List Obs)) (crop : String) (ins : Option (List Insight)),
      analyze_forecast fd crop = analyze_forecast fd crop ∧
      format_insights_for_farmers ins crop = format_insights_for_farmers ins crop :=
  fun _ _ _ => ⟨rfl, rfl⟩

/-- C10: every produced insight reports min_temp ≤ avg_temp ≤ max_temp, and its
recommendation list is one temperature advisory at most, then one rainfall
advisory at most, then one thunderstorm advisory at most, in that order. -/
theorem C10_insight_invariants :
    ∀ (items : List Obs) (crop : String) (ins : List Insight),
      analyze_forecast (some items) crop = .ok (some ins) →
      ∀ i ∈ ins,
        (∃ mn mx, i.min_temp = some mn ∧ i.max_temp = some mx ∧
          mn ≤ i.avg_temp ∧ i.avg_temp ≤ mx) ∧
        ∃ t r s, i.recommendations = t ++ r ++ s ∧
          t.length ≤ 1 ∧ r.length ≤ 1 ∧ s.length ≤ 1 ∧
          (∀ x ∈ t, x = heatMsg ∨ x = coldMsg) ∧
          (∀ x ∈ r, x = irrigationMsg ∨ x = drainageMsg) ∧
          ∀ x ∈ s, x = stormMsg := by
  intro items crop ins h i hi
  obtain ⟨g, hg, hne, havg, hmax, hmin, _, _, hrec⟩ := insight_fields h hi
  obtain ⟨hsum, hcount, hgmax, hgmin, _, _⟩ := hg
  constructor
  · obtain ⟨M, hM⟩ := foldl_accMax_ne_nil hne
    obtain ⟨m, hm⟩ := foldl_accMin_ne_nil hne
    have hub := (foldl_accMax_bound _ _ _ hM).1
    have hlb := (foldl_accMin_bound _ _ _ hm).1
    refine ⟨roundTo1 m, roundTo1 M, ?_, ?_, ?_, ?_⟩
    · rw [hmin, hgmin, hm]
      rfl
    · rw [hmax, hgmax, hM]
      rfl
    · rw [havg, hsum, hcount]
      exact roundTo1_mono (le_avg_of_forall_le hne hlb)
    · rw [havg, hsum, hcount]
      exact roundTo1_mono (avg_le_of_forall_le hne hub)
  · refine ⟨if floatMaxGT g.max_temp (cropInfoOf crop).risk_temp then [heatMsg]
        else if g.temp_sum / (g.temp_count : ℚ) < (cropInfoOf crop).optimal_temp.1
          then [coldMsg] else [],
      if g.rain_sum < 5 then [irrigationMsg]
        else if g.rain_sum > 20 then [drainageMsg] else [],
      if "Thunderstorm" ∈ g.weather_conditions then [stormMsg] else [],
      ?_, ?_, ?_, ?_, ?_, ?_, ?_⟩
    · rw [hrec]
      rfl
    · split_ifs <;> simp
    · split_ifs <;> simp
    · split_ifs <;> simp
    · split_ifs <;> simp
    · split_ifs <;> simp
    · split_ifs <;> simp

/-- Witness for C10 at a calm single-observation day. -/
theorem C10_insight_invariants_witness :
    (∃ mn mx, c10ins.min_temp = some mn ∧ c10ins.max_temp = some mx ∧
      mn ≤ c10ins.avg_temp ∧ c10ins.avg_temp ≤ mx) ∧
    ∃ t r s, c10ins.recommendations = t ++ r ++ s ∧
      t.length ≤ 1 ∧ r.length ≤ 1 ∧ s.length ≤ 1 ∧
      (∀ x ∈ t, x = heatMsg ∨ x = coldMsg) ∧
      (∀ x ∈ r, x = irrigationMsg ∨ x = drainageMsg) ∧
      ∀ x ∈ s, x = stormMsg :=
  C10_insight_invariants [mkObs 0 10 50] "maize" [c10ins] c10eval c10ins (by simp)

end Weather
